import Mathlib

/-!
# Verification of the WiFi credential provisioning pipeline

Shallow embedding of the credential transport pipeline of
`src/main.cpp` (ESP32 WiFi provisioning firmware): base64 codec,
AES-128-CBC cipher engine, sanitizer (`clean_string`), credential
parsing (the `sscanf` pattern in `connectToWiFi`), the HTTP handler
`handle_wifi_setup`, and the connection-attempt unit of work
`connectToWiFi`.

Bytes are modelled as `Nat` (values kept below 256 via explicit
invariants), byte buffers as `List Nat`.  C strings are the byte list
up to the first NUL (`cstring`).  Fallible operations return `Option`.
-/

set_option maxRecDepth 100000

/-! ## Sanitizer (`clean_string`, main.cpp lines 85-98)

The C code keeps exactly the bytes `b` with `b > 0x1F && b < 0x7F`
(compacting in place and re-terminating with NUL).  Bytes ≥ 0x80 are
dropped whether `char` is signed (negative, so `> 0x1F` fails) or
unsigned (`< 0x7F` fails), so the unsigned model below is faithful
either way. -/

def clean_string (s : List Nat) : List Nat :=
  s.filter (fun b => 0x1F < b && b < 0x7F)

/-! ## Credential parsing (`sscanf(credentials, "%63[^|]|%63s", ...)`,
main.cpp line 137)

C `sscanf` semantics for this format string:
* `%63[^|]` reads 1..63 bytes different from `'|'` (failure if it
  matches zero bytes);
* the literal `|` must then match the next byte;
* `%63s` skips leading whitespace (`isspace` in the C locale:
  0x09-0x0D and 0x20), then reads 1..63 non-whitespace bytes (failure
  at end of input).
The call succeeds (returns 2) exactly when both fields match. -/

def isWsByte (b : Nat) : Bool :=
  b == 0x20 || (0x09 ≤ b && b ≤ 0x0D)

def sscanfCreds (cs : List Nat) : Option (List Nat × List Nat) :=
  let ssid := (cs.takeWhile (fun b => b != 124)).take 63
  if ssid.isEmpty then none
  else if (cs.drop ssid.length).head? = some 124 then
    let afterWs := (cs.drop (ssid.length + 1)).dropWhile isWsByte
    let pw := (afterWs.takeWhile (fun b => !isWsByte b)).take 63
    if pw.isEmpty then none else some (ssid, pw)
  else none

/-- C string read of a byte buffer: the bytes before the first NUL. -/
def cstring (xs : List Nat) : List Nat :=
  xs.takeWhile (fun b => b != 0)

/-! ## AES-128 block cipher

Modelled from the spec: the firmware delegates to `mbedtls_aes_*`
(external library, not part of this repository); the spec fixes the
algorithm as a 128-bit-key block cipher, AES-128.  The model below is
FIPS-197 AES-128 on a 16-byte column-major state.  `xtime` is the
mbedtls `XTIME` macro `((x << 1) ^ ((x & 0x80) ? 0x1B : 0x00)) & 0xFF`. -/

def sboxT : List Nat :=
  [0x63, 0x7c, 0x77, 0x7b, 0xf2, 0x6b, 0x6f, 0xc5, 0x30, 0x01, 0x67, 0x2b, 0xfe, 0xd7, 0xab, 0x76,
   0xca, 0x82, 0xc9, 0x7d, 0xfa, 0x59, 0x47, 0xf0, 0xad, 0xd4, 0xa2, 0xaf, 0x9c, 0xa4, 0x72, 0xc0,
   0xb7, 0xfd, 0x93, 0x26, 0x36, 0x3f, 0xf7, 0xcc, 0x34, 0xa5, 0xe5, 0xf1, 0x71, 0xd8, 0x31, 0x15,
   0x04, 0xc7, 0x23, 0xc3, 0x18, 0x96, 0x05, 0x9a, 0x07, 0x12, 0x80, 0xe2, 0xeb, 0x27, 0xb2, 0x75,
   0x09, 0x83, 0x2c, 0x1a, 0x1b, 0x6e, 0x5a, 0xa0, 0x52, 0x3b, 0xd6, 0xb3, 0x29, 0xe3, 0x2f, 0x84,
   0x53, 0xd1, 0x00, 0xed, 0x20, 0xfc, 0xb1, 0x5b, 0x6a, 0xcb, 0xbe, 0x39, 0x4a, 0x4c, 0x58, 0xcf,
   0xd0, 0xef, 0xaa, 0xfb, 0x43, 0x4d, 0x33, 0x85, 0x45, 0xf9, 0x02, 0x7f, 0x50, 0x3c, 0x9f, 0xa8,
   0x51, 0xa3, 0x40, 0x8f, 0x92, 0x9d, 0x38, 0xf5, 0xbc, 0xb6, 0xda, 0x21, 0x10, 0xff, 0xf3, 0xd2,
   0xcd, 0x0c, 0x13, 0xec, 0x5f, 0x97, 0x44, 0x17, 0xc4, 0xa7, 0x7e, 0x3d, 0x64, 0x5d, 0x19, 0x73,
   0x60, 0x81, 0x4f, 0xdc, 0x22, 0x2a, 0x90, 0x88, 0x46, 0xee, 0xb8, 0x14, 0xde, 0x5e, 0x0b, 0xdb,
   0xe0, 0x32, 0x3a, 0x0a, 0x49, 0x06, 0x24, 0x5c, 0xc2, 0xd3, 0xac, 0x62, 0x91, 0x95, 0xe4, 0x79,
   0xe7, 0xc8, 0x37, 0x6d, 0x8d, 0xd5, 0x4e, 0xa9, 0x6c, 0x56, 0xf4, 0xea, 0x65, 0x7a, 0xae, 0x08,
   0xba, 0x78, 0x25, 0x2e, 0x1c, 0xa6, 0xb4, 0xc6, 0xe8, 0xdd, 0x74, 0x1f, 0x4b, 0xbd, 0x8b, 0x8a,
   0x70, 0x3e, 0xb5, 0x66, 0x48, 0x03, 0xf6, 0x0e, 0x61, 0x35, 0x57, 0xb9, 0x86, 0xc1, 0x1d, 0x9e,
   0xe1, 0xf8, 0x98, 0x11, 0x69, 0xd9, 0x8e, 0x94, 0x9b, 0x1e, 0x87, 0xe9, 0xce, 0x55, 0x28, 0xdf,
   0x8c, 0xa1, 0x89, 0x0d, 0xbf, 0xe6, 0x42, 0x68, 0x41, 0x99, 0x2d, 0x0f, 0xb0, 0x54, 0xbb, 0x16]

def invSboxT : List Nat :=
  [0x52, 0x09, 0x6a, 0xd5, 0x30, 0x36, 0xa5, 0x38, 0xbf, 0x40, 0xa3, 0x9e, 0x81, 0xf3, 0xd7, 0xfb,
   0x7c, 0xe3, 0x39, 0x82, 0x9b, 0x2f, 0xff, 0x87, 0x34, 0x8e, 0x43, 0x44, 0xc4, 0xde, 0xe9, 0xcb,
   0x54, 0x7b, 0x94, 0x32, 0xa6, 0xc2, 0x23, 0x3d, 0xee, 0x4c, 0x95, 0x0b, 0x42, 0xfa, 0xc3, 0x4e,
   0x08, 0x2e, 0xa1, 0x66, 0x28, 0xd9, 0x24, 0xb2, 0x76, 0x5b, 0xa2, 0x49, 0x6d, 0x8b, 0xd1, 0x25,
   0x72, 0xf8, 0xf6, 0x64, 0x86, 0x68, 0x98, 0x16, 0xd4, 0xa4, 0x5c, 0xcc, 0x5d, 0x65, 0xb6, 0x92,
   0x6c, 0x70, 0x48, 0x50, 0xfd, 0xed, 0xb9, 0xda, 0x5e, 0x15, 0x46, 0x57, 0xa7, 0x8d, 0x9d, 0x84,
   0x90, 0xd8, 0xab, 0x00, 0x8c, 0xbc, 0xd3, 0x0a, 0xf7, 0xe4, 0x58, 0x05, 0xb8, 0xb3, 0x45, 0x06,
   0xd0, 0x2c, 0x1e, 0x8f, 0xca, 0x3f, 0x0f, 0x02, 0xc1, 0xaf, 0xbd, 0x03, 0x01, 0x13, 0x8a, 0x6b,
   0x3a, 0x91, 0x11, 0x41, 0x4f, 0x67, 0xdc, 0xea, 0x97, 0xf2, 0xcf, 0xce, 0xf0, 0xb4, 0xe6, 0x73,
   0x96, 0xac, 0x74, 0x22, 0xe7, 0xad, 0x35, 0x85, 0xe2, 0xf9, 0x37, 0xe8, 0x1c, 0x75, 0xdf, 0x6e,
   0x47, 0xf1, 0x1a, 0x71, 0x1d, 0x29, 0xc5, 0x89, 0x6f, 0xb7, 0x62, 0x0e, 0xaa, 0x18, 0xbe, 0x1b,
   0xfc, 0x56, 0x3e, 0x4b, 0xc6, 0xd2, 0x79, 0x20, 0x9a, 0xdb, 0xc0, 0xfe, 0x78, 0xcd, 0x5a, 0xf4,
   0x1f, 0xdd, 0xa8, 0x33, 0x88, 0x07, 0xc7, 0x31, 0xb1, 0x12, 0x10, 0x59, 0x27, 0x80, 0xec, 0x5f,
   0x60, 0x51, 0x7f, 0xa9, 0x19, 0xb5, 0x4a, 0x0d, 0x2d, 0xe5, 0x7a, 0x9f, 0x93, 0xc9, 0x9c, 0xef,
   0xa0, 0xe0, 0x3b, 0x4d, 0xae, 0x2a, 0xf5, 0xb0, 0xc8, 0xeb, 0xbb, 0x3c, 0x83, 0x53, 0x99, 0x61,
   0x17, 0x2b, 0x04, 0x7e, 0xba, 0x77, 0xd6, 0x26, 0xe1, 0x69, 0x14, 0x63, 0x55, 0x21, 0x0c, 0x7d]

def sbox (b : Nat) : Nat := sboxT.getD b 0

def invSbox (b : Nat) : Nat := invSboxT.getD b 0

def xtime (b : Nat) : Nat :=
  ((b <<< 1) ^^^ (if b &&& 0x80 = 0 then 0 else 0x1B)) &&& 0xFF

/-- GF(2^8) multiplication by 3. -/
def mul3 (b : Nat) : Nat := xtime b ^^^ b

/-- GF(2^8) multiplication by 9. -/
def mul9 (b : Nat) : Nat := xtime (xtime (xtime b)) ^^^ b

/-- GF(2^8) multiplication by 11. -/
def mul11 (b : Nat) : Nat := xtime (xtime (xtime b)) ^^^ xtime b ^^^ b

/-- GF(2^8) multiplication by 13. -/
def mul13 (b : Nat) : Nat := xtime (xtime (xtime b)) ^^^ xtime (xtime b) ^^^ b

/-- GF(2^8) multiplication by 14. -/
def mul14 (b : Nat) : Nat := xtime (xtime (xtime b)) ^^^ xtime (xtime b) ^^^ xtime b

/-- Elementwise XOR of two byte buffers (AddRoundKey / CBC chaining). -/
def zipXor (a b : List Nat) : List Nat := List.zipWith (· ^^^ ·) a b

def subBytes (s : List Nat) : List Nat := s.map sbox

def invSubBytes (s : List Nat) : List Nat := s.map invSbox

/-- ShiftRows on the column-major 16-byte state (identity on ill-sized
input, which never occurs in the pipeline). -/
def shiftRows : List Nat → List Nat
  | [a0, a1, a2, a3, a4, a5, a6, a7, a8, a9, a10, a11, a12, a13, a14, a15] =>
    [a0, a5, a10, a15, a4, a9, a14, a3, a8, a13, a2, a7, a12, a1, a6, a11]
  | s => s

def invShiftRows : List Nat → List Nat
  | [a0, a1, a2, a3, a4, a5, a6, a7, a8, a9, a10, a11, a12, a13, a14, a15] =>
    [a0, a13, a10, a7, a4, a1, a14, a11, a8, a5, a2, a15, a12, a9, a6, a3]
  | s => s

/-- MixColumns on one column. -/
def mixCol4 (a b c d : Nat) : List Nat :=
  [xtime a ^^^ mul3 b ^^^ c ^^^ d,
   a ^^^ xtime b ^^^ mul3 c ^^^ d,
   a ^^^ b ^^^ xtime c ^^^ mul3 d,
   mul3 a ^^^ b ^^^ c ^^^ xtime d]

/-- Inverse MixColumns on one column. -/
def invMixCol4 (a b c d : Nat) : List Nat :=
  [mul14 a ^^^ mul11 b ^^^ mul13 c ^^^ mul9 d,
   mul9 a ^^^ mul14 b ^^^ mul11 c ^^^ mul13 d,
   mul13 a ^^^ mul9 b ^^^ mul14 c ^^^ mul11 d,
   mul11 a ^^^ mul13 b ^^^ mul9 c ^^^ mul14 d]

def mixColumns : List Nat → List Nat
  | a :: b :: c :: d :: rest => mixCol4 a b c d ++ mixColumns rest
  | s => s

def invMixColumns : List Nat → List Nat
  | a :: b :: c :: d :: rest => invMixCol4 a b c d ++ invMixColumns rest
  | s => s

def addRoundKey (rk s : List Nat) : List Nat := zipXor s rk

/-! ### AES-128 key schedule -/

def rotWord : List Nat → List Nat
  | a :: rest => rest ++ [a]
  | [] => []

def subWord (w : List Nat) : List Nat := w.map sbox

def rconList : List Nat := [1, 2, 4, 8, 16, 32, 64, 128, 27, 54]

/-- One key-expansion round: from 4 words to the next 4 words. -/
def expandRound (q : List (List Nat)) (rc : Nat) : List (List Nat) :=
  match q with
  | [w0, w1, w2, w3] =>
    let t :=
      match subWord (rotWord w3) with
      | t0 :: ts => (t0 ^^^ rc) :: ts
      | [] => []
    let u0 := zipXor w0 t
    let u1 := zipXor w1 u0
    let u2 := zipXor w2 u1
    let u3 := zipXor w3 u2
    [u0, u1, u2, u3]
  | q => q

def ksRounds : List Nat → List (List Nat) → List (List (List Nat))
  | [], q => [q]
  | rc :: rcs, q => q :: ksRounds rcs (expandRound q rc)

/-- AES-128 key schedule: the 11 round keys (16 bytes each). -/
def keySchedule (key : List Nat) : List (List Nat) :=
  (ksRounds rconList
    [key.take 4, (key.drop 4).take 4, (key.drop 8).take 4, (key.drop 12).take 4]).map
    (fun q => q.flatten)

/-! ### AES-128 block encryption / decryption -/

/-- Main rounds after the initial AddRoundKey; the last round key gets
the MixColumns-free final round. -/
def encMain : List (List Nat) → List Nat → List Nat
  | [], s => s
  | [k], s => addRoundKey k (shiftRows (subBytes s))
  | k :: rest, s => encMain rest (addRoundKey k (mixColumns (shiftRows (subBytes s))))

def aesEncryptB (rks : List (List Nat)) (s : List Nat) : List Nat :=
  match rks with
  | [] => s
  | k0 :: rest => encMain rest (addRoundKey k0 s)

/-- Inverse of `encMain`, consuming the same round-key list. -/
def decMain : List (List Nat) → List Nat → List Nat
  | [], s => s
  | [k], s => invSubBytes (invShiftRows (addRoundKey k s))
  | k :: rest, s => invSubBytes (invShiftRows (invMixColumns (addRoundKey k (decMain rest s))))

def aesDecryptB (rks : List (List Nat)) (s : List Nat) : List Nat :=
  match rks with
  | [] => s
  | k0 :: rest => addRoundKey k0 (decMain rest s)

/-- The compiled-in AES key (`AES_KEY`, main.cpp line 35):
`"thisismypassword"` as bytes. -/
def aesKeyBytes : List Nat :=
  [116, 104, 105, 115, 105, 115, 109, 121, 112, 97, 115, 115, 119, 111, 114, 100]

def aesRoundKeys : List (List Nat) := keySchedule aesKeyBytes

def aesEncBlock (s : List Nat) : List Nat := aesEncryptB aesRoundKeys s

def aesDecBlock (s : List Nat) : List Nat := aesDecryptB aesRoundKeys s

/-! ### CBC mode -/

/-- Block splitting worker, with fuel bounding the recursion depth by
the number of produced blocks (one unit per nonempty chunk). -/
def toBlocksGo : Nat → List Nat → List (List Nat)
  | _, [] => []
  | 0, _ => []
  | fuel + 1, a :: rest => (a :: rest).take 16 :: toBlocksGo fuel ((a :: rest).drop 16)

/-- Split a byte buffer into 16-byte blocks (the tail block may be
short if the length is not a multiple of 16; the pipeline only reaches
this on multiples). -/
def toBlocks16 (l : List Nat) : List (List Nat) :=
  toBlocksGo l.length l

/-- CBC decryption over a block list, given the previous ciphertext
block (initially the IV), as performed by `mbedtls_aes_crypt_cbc` with
`MBEDTLS_AES_DECRYPT`. -/
def cbcDecB (prev : List Nat) : List (List Nat) → List (List Nat)
  | [] => []
  | c :: rest => zipXor prev (aesDecBlock c) :: cbcDecB c rest

/-- Modelled from the spec: CBC encryption, the client-side path used
to produce test payloads (the firmware itself has no encryption path). -/
def cbcEncB (prev : List Nat) : List (List Nat) → List (List Nat)
  | [] => []
  | b :: rest =>
    let c := aesEncBlock (zipXor prev b)
    c :: cbcEncB c rest

/-- Modelled from the spec: zero padding of a client plaintext up to a
multiple of the 16-byte block size (CBC needs full blocks; the spec's
end-to-end test leaves the padding choice to the encrypting client,
and the caller NUL-terminates at the known plaintext length, so zero
padding makes the recovered C string exactly the plaintext). -/
def pad0 (l : List Nat) : List Nat :=
  l ++ List.replicate ((16 - l.length % 16) % 16) 0

/-! ## Base64 codec

Modelled from the spec: the Codec is `mbedtls_base64_decode` (external
library).  Standard base64 alphabet, `=` padding only at the end of
the final 4-character group, input length a multiple of 4; any other
character is rejected.  Bit extraction is written with `/ % *` on
`Nat`, which on the byte and sextet ranges involved coincides with the
C shift/mask operations. -/

/-- Value of one base64 alphabet character, `none` if invalid. -/
def b64Val (c : Nat) : Option Nat :=
  if 65 ≤ c ∧ c ≤ 90 then some (c - 65)
  else if 97 ≤ c ∧ c ≤ 122 then some (c - 71)
  else if 48 ≤ c ∧ c ≤ 57 then some (c + 4)
  else if c = 43 then some 62
  else if c = 47 then some 63
  else none

/-- Base64 alphabet character of a sextet. -/
def b64Chr (v : Nat) : Nat :=
  if v < 26 then v + 65
  else if v < 52 then v + 71
  else if v < 62 then v - 4
  else if v = 62 then 43
  else 47

def b64decode : List Nat → Option (List Nat)
  | [] => some []
  | c0 :: c1 :: c2 :: c3 :: rest =>
    match b64Val c0, b64Val c1 with
    | some v0, some v1 =>
      if c2 = 61 then
        if c3 = 61 ∧ rest = [] then some [v0 * 4 + v1 / 16] else none
      else
        match b64Val c2 with
        | some v2 =>
          if c3 = 61 then
            if rest = [] then some [v0 * 4 + v1 / 16, v1 % 16 * 16 + v2 / 4] else none
          else
            match b64Val c3 with
            | some v3 =>
              (b64decode rest).map
                (fun bs => (v0 * 4 + v1 / 16) :: (v1 % 16 * 16 + v2 / 4) :: (v2 % 4 * 64 + v3) :: bs)
            | none => none
        | none => none
    | _, _ => none
  | _ => none

/-- Modelled from the spec: client-side base64 encoding of the payload. -/
def b64encode : List Nat → List Nat
  | [] => []
  | [a] => [b64Chr (a / 4), b64Chr (a % 4 * 16), 61, 61]
  | [a, b] => [b64Chr (a / 4), b64Chr (a % 4 * 16 + b / 16), b64Chr (b % 16 * 4), 61]
  | a :: b :: c :: rest =>
    b64Chr (a / 4) :: b64Chr (a % 4 * 16 + b / 16) :: b64Chr (b % 16 * 4 + c / 64) ::
      b64Chr (c % 64) :: b64encode rest

/-! ## `decrypt_wifi_credentials` (main.cpp lines 51-83)

Decodes into a 64-byte stack buffer (decoded payloads above 64 bytes
fail inside `mbedtls_base64_decode`), requires at least 16 decoded
bytes (IV), requires the ciphertext to fit strictly inside the output
buffer, then CBC-decrypts and NUL-terminates at the ciphertext length.
The return value of `mbedtls_aes_crypt_cbc` is ignored: when the
ciphertext length is not a multiple of 16 the library writes nothing
and the function still returns true, exposing the uninitialized stack
buffer; the `junk` parameter models that uninitialized memory.
`none` models `return false`; `some cs` models `return true` with the
output buffer holding C string `cs`. -/

def decrypt_wifi_credentials (junk : List Nat) (b64 : List Nat) (output_size : Nat) :
    Option (List Nat) :=
  match b64decode b64 with
  | none => none
  | some d =>
    if 64 < d.length then none
    else if d.length < 16 then none
    else
      let ct := d.drop 16
      if output_size ≤ ct.length then none
      else if ct.length % 16 = 0 then
        some (cstring ((cbcDecB (d.take 16) (toBlocks16 ct)).flatten))
      else
        some (cstring (junk.take ct.length))

/-! ## HTTP handler `handle_wifi_setup` (main.cpp lines 190-219)

The JSON boundary (`deserializeJson` / `containsKey`, external
ArduinoJson library) is abstracted into the three request shapes the
handler distinguishes.  The result is the HTTP status code sent and
the `strdup`ed decrypted C string handed to the spawned
`connectToWiFi` task (`none` when no task is created). -/

inductive ReqBody where
  | badJson : ReqBody
  | noData : ReqBody
  | withData (b64 : List Nat) : ReqBody

def handle_wifi_setup (junk : List Nat) : ReqBody → Nat × Option (List Nat)
  | ReqBody.badJson => (400, none)
  | ReqBody.noData => (400, none)
  | ReqBody.withData b64 =>
    match decrypt_wifi_credentials junk b64 128 with
    | none => (400, none)
    | some decrypted => (200, some decrypted)

/-! ## Connection-attempt unit of work `connectToWiFi` (main.cpp 126-185)

The radio is an external collaborator: `env i` models the i-th
`WiFi.status() == WL_CONNECTED` reading.  The while loop reads the
status, then checks `attempts < 20`; each iteration delays 500 ms.
The persistent store is the `Prefs` record; the code writes it only in
the success branch. -/

structure Prefs where
  ssid : Option (List Nat)
  password : Option (List Nat)
deriving DecidableEq

structure ConnectResult where
  parsedOk : Bool
  began : Bool
  used : Option (List Nat × List Nat)
  polls : Nat
  delayMs : Nat
  connected : Bool
  prefs : Prefs
deriving DecidableEq

/-- The retry loop: returns the final value of `attempts`.  `a` is the
current attempt count; the loop body (one 500 ms delay) runs exactly
once per increment. -/
def wloop (env : Nat → Bool) (a : Nat) : Nat :=
  if env a = false ∧ a < 20 then wloop env (a + 1) else a
termination_by 20 - a
decreasing_by omega

def connectToWiFi (env : Nat → Bool) (p : Prefs) (credentials : List Nat) : ConnectResult :=
  match sscanfCreds credentials with
  | none =>
    { parsedOk := false, began := false, used := none, polls := 0, delayMs := 0,
      connected := false, prefs := p }
  | some (s, pw) =>
    let ss := clean_string s
    let pp := clean_string pw
    let e := wloop env 0
    let conn := env (e + 1)
    { parsedOk := true, began := true, used := some (ss, pp), polls := e,
      delayMs := 500 * e, connected := conn,
      prefs := if conn then { ssid := some ss, password := some pp } else p }

/-! ## Block invariant and concrete test data -/

/-- A well-formed 16-byte block. -/
def IsBlock (s : List Nat) : Prop :=
  s.length = 16 ∧ ∀ x ∈ s, x < 256

instance : DecidablePred IsBlock := fun s => by
  unfold IsBlock
  infer_instance

/-- `"HomeNet|Sup3rSecret"` as bytes. -/
def homeNetPlain : List Nat :=
  [72, 111, 109, 101, 78, 101, 116, 124, 83, 117, 112, 51, 114, 83, 101, 99, 114, 101, 116]

/-- `"HomeNet"` as bytes. -/
def homeNetSsid : List Nat := [72, 111, 109, 101, 78, 101, 116]

/-- `"Sup3rSecret"` as bytes. -/
def homeNetPw : List Nat := [83, 117, 112, 51, 114, 83, 101, 99, 114, 101, 116]

/-- Modelled from the spec: the end-to-end test payload — the
plaintext `"HomeNet|Sup3rSecret"` zero-padded to a block multiple,
CBC-encrypted under the compiled-in key with the given IV, prefixed
with the IV and base64-encoded. -/
def c2Payload (iv : List Nat) : List Nat :=
  b64encode (iv ++ (cbcEncB iv (toBlocks16 (pad0 homeNetPlain))).flatten)

/-- `"NoSeparatorHere"` as bytes: a plaintext that decrypts fine but
fails credential parsing (no `|`). -/
def noSepPlain : List Nat :=
  [78, 111, 83, 101, 112, 97, 114, 97, 116, 111, 114, 72, 101, 114, 101]

/-- A well-formed encrypted payload (IV `0..15`) whose plaintext
`"NoSeparatorHere"` fails at the Credential Parser stage. -/
def noSepPayload : List Nat :=
  b64encode (List.range 16 ++ (cbcEncB (List.range 16) (toBlocks16 (pad0 noSepPlain))).flatten)

/-! # Theorems -/

/-! ## Generic XOR / byte lemmas -/

theorem xor_left_comm (a b c : Nat) : a ^^^ (b ^^^ c) = b ^^^ (a ^^^ c) := by
  rw [← Nat.xor_assoc, Nat.xor_comm a b, Nat.xor_assoc]

theorem shiftLeft_xor_distrib (x y n : Nat) : (x ^^^ y) <<< n = x <<< n ^^^ y <<< n := by
  apply Nat.eq_of_testBit_eq
  intro i
  simp [Nat.testBit_shiftLeft, Nat.testBit_xor, Bool.and_xor_distrib_left]

theorem and_hi_cases (a : Nat) : a &&& 128 = 0 ∨ a &&& 128 = 128 := by
  have h := Nat.and_two_pow a 7
  cases hb : a.testBit 7 <;> rw [hb] at h <;> simp at h <;> simp [h]

theorem xtime_xor (a b : Nat) : xtime (a ^^^ b) = xtime a ^^^ xtime b := by
  unfold xtime
  have hd : (a ^^^ b) &&& 128 = a &&& 128 ^^^ b &&& 128 := Nat.and_xor_distrib_right
  rcases and_hi_cases a with ha | ha <;> rcases and_hi_cases b with hb | hb <;>
    simp [ha, hb, hd, shiftLeft_xor_distrib, Nat.and_xor_distrib_right,
      Nat.xor_assoc, Nat.xor_comm, xor_left_comm]

theorem xtime_lt (b : Nat) : xtime b < 256 := by
  have h : xtime b ≤ 255 := Nat.and_le_right
  omega

theorem xor_byte_lt {a b : Nat} (ha : a < 256) (hb : b < 256) : a ^^^ b < 256 := by
  have h : a ^^^ b < 2 ^ 8 := Nat.xor_lt_two_pow (by norm_num [ha]) (by norm_num [hb])
  simpa using h

/-! ## Sanitizer: claims C6 and C10 -/

/-- C6: `clean_string` removes exactly the bytes outside printable
ASCII `[0x20, 0x7E]`: the output is a subsequence of the input, every
surviving byte is in range, and each in-range byte survives with its
exact multiplicity while out-of-range bytes are removed entirely.
(NUL termination is part of the C buffer representation: the model
returns the bytes of the NUL-terminated result string.) -/
theorem c6_sanitizer_exact (s : List Nat) :
    (clean_string s).Sublist s ∧
    (∀ b ∈ clean_string s, 0x20 ≤ b ∧ b ≤ 0x7E) ∧
    (∀ b, (clean_string s).count b = if 0x20 ≤ b ∧ b ≤ 0x7E then s.count b else 0) := by
  refine ⟨List.filter_sublist s, ?_, ?_⟩
  · intro b hb
    rcases (List.mem_filter.mp hb) with ⟨-, hp⟩
    simp only [Bool.and_eq_true, decide_eq_true_eq] at hp
    omega
  · intro b
    by_cases hb : 0x20 ≤ b ∧ b ≤ 0x7E
    · rw [if_pos hb]
      exact List.count_filter (by simp only [Bool.and_eq_true, decide_eq_true_eq]; omega)
    · rw [if_neg hb]
      rw [List.count_eq_zero]
      intro hmem
      rcases (List.mem_filter.mp hmem) with ⟨-, hp⟩
      simp only [Bool.and_eq_true, decide_eq_true_eq] at hp
      omega

theorem c6_sanitizer_exact_witness :
    (clean_string [1, 65, 10, 66, 200]).Sublist [1, 65, 10, 66, 200] :=
  (c6_sanitizer_exact [1, 65, 10, 66, 200]).1

/-- C10: the sanitizer is idempotent. -/
theorem c10_sanitizer_idempotent (x : List Nat) :
    clean_string (clean_string x) = clean_string x := by
  unfold clean_string
  rw [List.filter_filter]
  congr 1
  funext a
  exact Bool.and_self _

/-! ## Connection attempt: claims C8 and C9 -/

theorem wloop_le (env : Nat → Bool) : ∀ n a, 20 - a ≤ n → a ≤ 20 → wloop env a ≤ 20 := by
  intro n
  induction n with
  | zero =>
    intro a h1 h2
    have ha : a = 20 := by omega
    subst ha
    rw [wloop]
    simp
  | succ m ih =>
    intro a h1 h2
    rw [wloop]
    split
    · exact ih (a + 1) (by omega) (by omega)
    · exact h2

/-- C8: every dispatched connection attempt is bounded: the status
loop runs at most 20 iterations at 500 ms spacing, and if the status
never reads connected the attempt ends not connected (failure). -/
theorem c8_bounded_retry (env : Nat → Bool) (p : Prefs) (cs : List Nat) :
    (connectToWiFi env p cs).polls ≤ 20 ∧
    (connectToWiFi env p cs).delayMs = 500 * (connectToWiFi env p cs).polls ∧
    ((∀ i, env i = false) → (connectToWiFi env p cs).connected = false) := by
  cases h : sscanfCreds cs with
  | none => simp [connectToWiFi, h]
  | some pr =>
    obtain ⟨s, pw⟩ := pr
    simp only [connectToWiFi, h]
    refine ⟨wloop_le env 20 0 (by omega) (by omega), by trivial, ?_⟩
    intro hall
    simp [hall]

theorem c8_bounded_retry_witness :
    (connectToWiFi (fun _ => false) ⟨none, none⟩ homeNetPlain).connected = false :=
  (c8_bounded_retry (fun _ => false) ⟨none, none⟩ homeNetPlain).2.2 (fun _ => rfl)

/-- C9: a connection attempt that ends without connecting leaves the
persistent credential store untouched (the store is written only in
the success branch). -/
theorem c9_prefs_frame (env : Nat → Bool) (p : Prefs) (cs : List Nat)
    (h : (connectToWiFi env p cs).connected = false) :
    (connectToWiFi env p cs).prefs = p := by
  cases hp : sscanfCreds cs with
  | none => simp [connectToWiFi, hp]
  | some pr =>
    obtain ⟨s, pw⟩ := pr
    simp only [connectToWiFi, hp] at h ⊢
    simp [h]

theorem c9_prefs_frame_witness :
    (connectToWiFi (fun _ => false) ⟨some [65], some [66]⟩ homeNetPlain).prefs =
      ⟨some [65], some [66]⟩ :=
  c9_prefs_frame (fun _ => false) ⟨some [65], some [66]⟩ homeNetPlain (by decide)

/-! ## Credential parsing: claims C3 and C4 -/

theorem takeWhile_append_all {p : Nat → Bool} :
    ∀ (s t : List Nat), (∀ x ∈ s, p x = true) → (s ++ t).takeWhile p = s ++ t.takeWhile p := by
  intro s t h
  induction s with
  | nil => simp
  | cons a s ih =>
    have ha : p a = true := h a (by simp)
    simp only [List.cons_append, List.takeWhile_cons, ha, if_pos]
    rw [ih (fun x hx => h x (by simp [hx]))]

theorem dropWhile_head_false {q : Nat → Bool} :
    ∀ (l : List Nat) (y : Nat) (ys : List Nat), l.dropWhile q = y :: ys → q y = false := by
  intro l
  induction l with
  | nil => intro y ys h; simp at h
  | cons a t ih =>
    intro y ys h
    rw [List.dropWhile_cons] at h
    split at h
    · exact ih y ys h
    · rename_i hqa
      cases h
      simpa using hqa

/-- `%63[^|]` then the literal `|`: if no `|` byte occurs in the
input, the literal match fails and `sscanf` returns fewer than 2. -/
theorem sscanfCreds_no_sep (cs : List Nat) (h : 124 ∉ cs) : sscanfCreds cs = none := by
  have hall : ∀ x ∈ cs, (x != 124) = true := by
    intro x hx
    simp only [bne_iff_ne, ne_eq]
    intro e
    exact h (e ▸ hx)
  have ht : cs.takeWhile (fun b => b != 124) = cs := by
    have h2 := takeWhile_append_all cs [] hall
    simpa using h2
  unfold sscanfCreds
  simp only [ht]
  by_cases hcs : cs.take 63 = []
  · simp [hcs]
  · rw [if_neg (by simpa [List.isEmpty_iff] using hcs)]
    cases hh : (cs.drop (cs.take 63).length).head? with
    | none => simp [hh]
    | some x =>
      have hx : x ∈ cs :=
        List.mem_of_mem_drop (List.mem_of_mem_head? (Option.mem_def.mpr hh))
      have hx124 : x ≠ 124 := fun e => h (e ▸ hx)
      simp [hh, hx124]

/-- `%63[^|]` reads at most 63 bytes; if the 64th byte is still not
`|`, the literal match fails. -/
theorem sscanfCreds_long_ssid (cs : List Nat)
    (h : 63 < (cs.takeWhile (fun b => b != 124)).length) : sscanfCreds cs = none := by
  obtain ⟨rest, hrest⟩ := List.takeWhile_prefix (l := cs) (fun b => b != 124)
  have hlen : ((cs.takeWhile (fun b => b != 124)).take 63).length = 63 := by
    rw [List.length_take]
    omega
  unfold sscanfCreds
  rw [if_neg (by
    rw [List.isEmpty_iff]
    intro e
    rw [e] at hlen
    simp at hlen)]
  rw [hlen]
  have hdrop : cs.drop 63 = (cs.takeWhile (fun b => b != 124)).drop 63 ++ rest := by
    conv_lhs => rw [← hrest]
    rw [List.drop_append_of_le_length (by omega)]
  cases htd : (cs.takeWhile (fun b => b != 124)).drop 63 with
  | nil =>
    exfalso
    have h2 := List.length_drop 63 (cs.takeWhile (fun b => b != 124))
    rw [htd] at h2
    simp at h2
    omega
  | cons y ys =>
    have hy : y ∈ cs.takeWhile (fun b => b != 124) :=
      List.mem_of_mem_drop (n := 63) (by rw [htd]; simp)
    have hyp := List.mem_takeWhile_imp hy
    have hy124 : y ≠ 124 := by simpa [bne_iff_ne] using hyp
    rw [if_neg]
    rw [hdrop, htd]
    simp [hy124]

/-- Successful parse: nonempty `|`-free ssid of at most 63 bytes,
then `|`, then a password side with at least one non-whitespace byte;
the password is the first non-whitespace run after skipping leading
whitespace, truncated to 63 bytes. -/
theorem sscanfCreds_split (s p : List Nat) (hne : s ≠ []) (hlen : s.length ≤ 63)
    (hsep : 124 ∉ s) (hpw : p.dropWhile isWsByte ≠ []) :
    sscanfCreds (s ++ 124 :: p) =
      some (s, ((p.dropWhile isWsByte).takeWhile (fun b => !isWsByte b)).take 63) := by
  have hall : ∀ x ∈ s, (x != 124) = true := by
    intro x hx
    simp only [bne_iff_ne, ne_eq]
    intro e
    exact hsep (e ▸ hx)
  have ht : (s ++ 124 :: p).takeWhile (fun b => b != 124) = s := by
    rw [takeWhile_append_all s (124 :: p) hall]
    simp [List.takeWhile_cons]
  have hs63 : ((s ++ 124 :: p).takeWhile (fun b => b != 124)).take 63 = s := by
    rw [ht, List.take_of_length_le hlen]
  have hd1 : (s ++ 124 :: p).drop s.length = 124 :: p := List.drop_left s (124 :: p)
  have hd2 : (s ++ 124 :: p).drop (s.length + 1) = p := by
    have he : s ++ 124 :: p = (s ++ [124]) ++ p := by simp
    have hl : (s ++ [124]).length = s.length + 1 := by simp
    rw [he, ← hl, List.drop_left]
  obtain ⟨y, ys, haw⟩ : ∃ y ys, p.dropWhile isWsByte = y :: ys := by
    cases hw : p.dropWhile isWsByte with
    | nil => exact absurd hw hpw
    | cons y ys => exact ⟨y, ys, rfl⟩
  have hy : isWsByte y = false := dropWhile_head_false p y ys haw
  unfold sscanfCreds
  simp only [hs63, hd1, hd2]
  rw [if_neg (by rw [List.isEmpty_iff]; exact hne)]
  rw [if_pos (by rw [List.head?_cons])]
  rw [haw]
  simp [List.takeWhile_cons, hy]

/-- `%63[^|]` must match at least one byte: an empty ssid side (input
empty or starting with `|`) makes `sscanf` return 0. -/
theorem sscanfCreds_empty_ssid (cs : List Nat)
    (h : cs.takeWhile (fun b => b != 124) = []) : sscanfCreds cs = none := by
  unfold sscanfCreds
  simp [h]

theorem dropWhile_append_all {p : Nat → Bool} :
    ∀ (q t : List Nat), (∀ x ∈ q, p x = true) → (q ++ t).dropWhile p = t.dropWhile p := by
  intro q t h
  induction q with
  | nil => rfl
  | cons a q ih =>
    have ha : p a = true := h a (by simp)
    simp only [List.cons_append, List.dropWhile_cons, ha, if_pos]
    exact ih (fun x hx => h x (by simp [hx]))

/-- Well-formed ssid side but a password side with no non-whitespace
byte: `%63s` skips all of it, hits end of input, and `sscanf`
returns 1. -/
theorem sscanfCreds_ws_password (s p : List Nat) (hne : s ≠ []) (hlen : s.length ≤ 63)
    (hsep : 124 ∉ s) (hws : p.dropWhile isWsByte = []) :
    sscanfCreds (s ++ 124 :: p) = none := by
  have hall : ∀ x ∈ s, (x != 124) = true := by
    intro x hx
    simp only [bne_iff_ne, ne_eq]
    intro e
    exact hsep (e ▸ hx)
  have ht : (s ++ 124 :: p).takeWhile (fun b => b != 124) = s := by
    rw [takeWhile_append_all s (124 :: p) hall]
    simp [List.takeWhile_cons]
  have hs63 : ((s ++ 124 :: p).takeWhile (fun b => b != 124)).take 63 = s := by
    rw [ht, List.take_of_length_le hlen]
  have hd1 : (s ++ 124 :: p).drop s.length = 124 :: p := List.drop_left s (124 :: p)
  have hd2 : (s ++ 124 :: p).drop (s.length + 1) = p := by
    have he : s ++ 124 :: p = (s ++ [124]) ++ p := by simp
    have hl : (s ++ [124]).length = s.length + 1 := by simp
    rw [he, ← hl, List.drop_left]
  unfold sscanfCreds
  simp only [hs63, hd1, hd2]
  rw [if_neg (by rw [List.isEmpty_iff]; exact hne)]
  rw [if_pos (by rw [List.head?_cons])]
  rw [hws]
  simp

/-- A password side with no non-whitespace byte never parses,
whatever the shape of the `|`-free prefix before the separator: an
empty or over-long ssid side already fails, and otherwise `%63s`
fails on the whitespace-only remainder. -/
theorem sscanfCreds_no_password (s p : List Nat) (hsep : 124 ∉ s)
    (hws : p.dropWhile isWsByte = []) : sscanfCreds (s ++ 124 :: p) = none := by
  by_cases hne : s = []
  · subst hne
    apply sscanfCreds_empty_ssid
    simp [List.takeWhile_cons]
  · by_cases hlen : s.length ≤ 63
    · exact sscanfCreds_ws_password s p hne hlen hsep hws
    · apply sscanfCreds_long_ssid
      have hall : ∀ x ∈ s, (x != 124) = true := by
        intro x hx
        simp only [bne_iff_ne, ne_eq]
        intro e
        exact hsep (e ▸ hx)
      have ht : (s ++ 124 :: p).takeWhile (fun b => b != 124) = s := by
        rw [takeWhile_append_all s (124 :: p) hall]
        simp [List.takeWhile_cons]
      rw [ht]
      omega

/-- Leading whitespace on the password side is skipped by `%63s`: the
returned password is the first non-whitespace run after it. -/
theorem sscanfCreds_skip_ws (s q w : List Nat) (c : Nat) (rest : List Nat)
    (hs : s ≠ []) (hs63 : s.length ≤ 63) (hsep : 124 ∉ s)
    (hq : ∀ x ∈ q, isWsByte x = true)
    (hw : w ≠ []) (hw63 : w.length ≤ 63) (hwns : ∀ x ∈ w, isWsByte x = false)
    (hc : isWsByte c = true) :
    sscanfCreds (s ++ 124 :: (q ++ (w ++ c :: rest))) = some (s, w) := by
  obtain ⟨x, w', hxw⟩ : ∃ x w', w = x :: w' := by
    cases w with
    | nil => exact absurd rfl hw
    | cons x w' => exact ⟨x, w', rfl⟩
  have hdw : (q ++ (w ++ c :: rest)).dropWhile isWsByte = w ++ c :: rest := by
    rw [dropWhile_append_all q _ hq]
    rw [hxw, List.cons_append, List.dropWhile_cons_of_neg]
    simp [hwns x (by rw [hxw]; simp)]
  have htw : (w ++ c :: rest).takeWhile (fun b => !isWsByte b) = w := by
    rw [takeWhile_append_all w (c :: rest) (fun x hx => by simp [hwns x hx])]
    simp [List.takeWhile_cons, hc]
  rw [sscanfCreds_split s (q ++ (w ++ c :: rest)) hs hs63 hsep (by rw [hdw]; rw [hxw]; simp)]
  rw [hdw, htw, List.take_of_length_le hw63]

/-- C3 counterexample: a password side of 64 bytes (> 63) does not
make the parse fail; `sscanf` truncates it to the first 63 bytes and
still returns 2, so the parse succeeds. -/
theorem c3_long_password_parses :
    sscanfCreds (65 :: 124 :: List.replicate 64 98) = some ([65], List.replicate 63 98) := by
  decide

/-- C3 (amended): the parse fails when no `|` byte is present, when
the ssid side exceeds 63 bytes, when the ssid side is empty, or when
the password side holds no non-whitespace byte; on success it returns
the bytes before the separator and the first non-whitespace run of
the password side truncated to 63 bytes — a password side longer than
63 bytes is truncated, not rejected. -/
theorem c3_parse_characterization :
    (∀ cs : List Nat, 124 ∉ cs → sscanfCreds cs = none) ∧
    (∀ cs : List Nat, 63 < (cs.takeWhile (fun b => b != 124)).length → sscanfCreds cs = none) ∧
    (∀ cs : List Nat, cs.takeWhile (fun b => b != 124) = [] → sscanfCreds cs = none) ∧
    (∀ s p : List Nat, 124 ∉ s → p.dropWhile isWsByte = [] →
      sscanfCreds (s ++ 124 :: p) = none) ∧
    (∀ s p : List Nat, s ≠ [] → s.length ≤ 63 → 124 ∉ s → p.dropWhile isWsByte ≠ [] →
      sscanfCreds (s ++ 124 :: p) =
        some (s, ((p.dropWhile isWsByte).takeWhile (fun b => !isWsByte b)).take 63)) :=
  ⟨sscanfCreds_no_sep, sscanfCreds_long_ssid, sscanfCreds_empty_ssid,
   sscanfCreds_no_password, sscanfCreds_split⟩

theorem c3_parse_characterization_witness :
    sscanfCreds [78, 111] = none ∧
    sscanfCreds (List.replicate 64 97) = none ∧
    sscanfCreds [124, 120] = none ∧
    sscanfCreds ([65] ++ 124 :: [32, 9]) = none ∧
    sscanfCreds ([65] ++ 124 :: List.replicate 64 98) = some ([65], List.replicate 63 98) := by
  refine ⟨c3_parse_characterization.1 [78, 111] (by decide),
    c3_parse_characterization.2.1 (List.replicate 64 97) (by decide),
    c3_parse_characterization.2.2.1 [124, 120] (by decide),
    c3_parse_characterization.2.2.2.1 [65] [32, 9] (by decide) (by decide), ?_⟩
  have h := c3_parse_characterization.2.2.2.2 [65] (List.replicate 64 98)
    (by decide) (by decide) (by decide) (by decide)
  rw [h]
  decide

/-- C4 counterexample: for plaintext `"MyNet| x"` the password side
`" x"` has its first whitespace byte at position 0, so the claimed
result (the bytes before the first whitespace) would be the empty
password; the code instead skips the leading whitespace and returns
`"x"`. -/
theorem c4_leading_ws_password :
    sscanfCreds [77, 121, 78, 101, 116, 124, 32, 120] = some ([77, 121, 78, 101, 116], [120]) ∧
    List.takeWhile (fun b => !isWsByte b) [32, 120] = ([] : List Nat) := by
  decide

/-- C4 (amended): when the ssid side is well-formed and the password
side starts with a nonempty whitespace-free run of at most 63 bytes
followed by a whitespace byte, the parse succeeds and returns exactly
that run as the password, silently discarding the whitespace and
everything after it.  A password side that begins with whitespace has
that whitespace skipped instead (the password is the first
non-whitespace run after it), and a password side with no
non-whitespace byte fails the parse. -/
theorem c4_whitespace_truncation :
    (∀ (s w : List Nat) (c : Nat) (rest : List Nat),
      s ≠ [] → s.length ≤ 63 → 124 ∉ s → w ≠ [] → w.length ≤ 63 →
      (∀ x ∈ w, isWsByte x = false) → isWsByte c = true →
      sscanfCreds (s ++ 124 :: (w ++ c :: rest)) = some (s, w)) ∧
    (∀ (s q w : List Nat) (c : Nat) (rest : List Nat),
      s ≠ [] → s.length ≤ 63 → 124 ∉ s → (∀ x ∈ q, isWsByte x = true) →
      w ≠ [] → w.length ≤ 63 → (∀ x ∈ w, isWsByte x = false) → isWsByte c = true →
      sscanfCreds (s ++ 124 :: (q ++ (w ++ c :: rest))) = some (s, w)) ∧
    (∀ s p : List Nat, 124 ∉ s → p.dropWhile isWsByte = [] →
      sscanfCreds (s ++ 124 :: p) = none) :=
  ⟨fun s w c rest hs hs63 hsep hw hw63 hwns hc =>
     sscanfCreds_skip_ws s [] w c rest hs hs63 hsep (by simp) hw hw63 hwns hc,
   sscanfCreds_skip_ws, sscanfCreds_no_password⟩

theorem c4_whitespace_truncation_witness :
    sscanfCreds
      ([77, 121, 78, 101, 116] ++ 124 :: ([112, 97, 115, 115] ++ 32 :: [119, 111, 114, 100])) =
      some ([77, 121, 78, 101, 116], [112, 97, 115, 115]) ∧
    sscanfCreds
      ([77, 121, 78, 101, 116] ++ 124 ::
        ([32, 32] ++ ([112, 97, 115, 115] ++ 32 :: [119, 111, 114, 100]))) =
      some ([77, 121, 78, 101, 116], [112, 97, 115, 115]) ∧
    sscanfCreds ([77, 121, 78, 101, 116] ++ 124 :: [32, 32, 9]) = none :=
  ⟨c4_whitespace_truncation.1 [77, 121, 78, 101, 116] [112, 97, 115, 115] 32 [119, 111, 114, 100]
     (by decide) (by decide) (by decide) (by decide) (by decide) (by decide) (by decide),
   c4_whitespace_truncation.2.1 [77, 121, 78, 101, 116] [32, 32] [112, 97, 115, 115] 32
     [119, 111, 114, 100] (by decide) (by decide) (by decide) (by decide) (by decide)
     (by decide) (by decide) (by decide),
   c4_whitespace_truncation.2.2 [77, 121, 78, 101, 116] [32, 32, 9] (by decide) (by decide)⟩

/-! ## Base64 codec lemmas and claims C7, C5 -/

theorem b64Val_b64Chr : ∀ v < 64, b64Val (b64Chr v) = some v := by decide

theorem b64Chr_ne_61 : ∀ v < 64, b64Chr v ≠ 61 := by decide

/-- Decoding inverts encoding on byte lists (the codec round trip). -/
theorem b64decode_b64encode :
    ∀ bs : List Nat, (∀ b ∈ bs, b < 256) → b64decode (b64encode bs) = some bs := by
  intro bs
  induction bs using b64encode.induct with
  | case1 =>
    intro _
    rfl
  | case2 a =>
    intro h
    have ha : a < 256 := h a (by simp)
    have h0 : b64Val (b64Chr (a / 4)) = some (a / 4) := b64Val_b64Chr _ (by omega)
    have h1 : b64Val (b64Chr (a % 4 * 16)) = some (a % 4 * 16) := b64Val_b64Chr _ (by omega)
    simp [b64encode, b64decode, h0, h1]
    all_goals omega
  | case3 a b =>
    intro h
    have ha : a < 256 := h a (by simp)
    have hb : b < 256 := h b (by simp)
    have h0 : b64Val (b64Chr (a / 4)) = some (a / 4) := b64Val_b64Chr _ (by omega)
    have h1 : b64Val (b64Chr (a % 4 * 16 + b / 16)) = some (a % 4 * 16 + b / 16) :=
      b64Val_b64Chr _ (by omega)
    have h2 : b64Val (b64Chr (b % 16 * 4)) = some (b % 16 * 4) := b64Val_b64Chr _ (by omega)
    have h2n : b64Chr (b % 16 * 4) ≠ 61 := b64Chr_ne_61 _ (by omega)
    simp [b64encode, b64decode, h0, h1, h2, h2n]
    all_goals omega
  | case4 a b c rest ih =>
    intro h
    have ha : a < 256 := h a (by simp)
    have hb : b < 256 := h b (by simp)
    have hc : c < 256 := h c (by simp)
    have hrest : ∀ x ∈ rest, x < 256 := fun x hx => h x (by simp [hx])
    have h0 : b64Val (b64Chr (a / 4)) = some (a / 4) := b64Val_b64Chr _ (by omega)
    have h1 : b64Val (b64Chr (a % 4 * 16 + b / 16)) = some (a % 4 * 16 + b / 16) :=
      b64Val_b64Chr _ (by omega)
    have h2 : b64Val (b64Chr (b % 16 * 4 + c / 64)) = some (b % 16 * 4 + c / 64) :=
      b64Val_b64Chr _ (by omega)
    have h3 : b64Val (b64Chr (c % 64)) = some (c % 64) := b64Val_b64Chr _ (by omega)
    have h2n : b64Chr (b % 16 * 4 + c / 64) ≠ 61 := b64Chr_ne_61 _ (by omega)
    have h3n : b64Chr (c % 64) ≠ 61 := b64Chr_ne_61 _ (by omega)
    simp [b64encode, b64decode, h0, h1, h2, h3, h2n, h3n, ih hrest]
    all_goals omega

/-- C7: a decoded payload shorter than 16 bytes (no full IV) makes
`decrypt_wifi_credentials` fail and produce no plaintext. -/
theorem c7_short_payload_rejected (junk b64 d : List Nat)
    (h : b64decode b64 = some d) (hlen : d.length < 16) :
    decrypt_wifi_credentials junk b64 128 = none := by
  unfold decrypt_wifi_credentials
  rw [h]
  simp only
  rw [if_neg (by omega), if_pos hlen]

theorem c7_short_payload_rejected_witness :
    decrypt_wifi_credentials []
      [65, 65, 65, 65, 65, 65, 65, 65, 65, 65, 65, 65, 65, 65, 61, 61] 128 = none :=
  c7_short_payload_rejected [] _ (List.replicate 10 0) (by decide) (by decide)

/-- C5: a payload that decodes to exactly 16 bytes (IV only, zero
ciphertext bytes) does not make the pipeline misbehave: decryption
"succeeds" with the empty plaintext, the handler acknowledges and
dispatches, and the parse step rejects the empty credential string so
no connection is attempted. -/
theorem c5_iv_only_payload (junk b64 d : List Nat)
    (h : b64decode b64 = some d) (hlen : d.length = 16) :
    decrypt_wifi_credentials junk b64 128 = some [] ∧
    handle_wifi_setup junk (ReqBody.withData b64) = (200, some []) ∧
    (∀ (env : Nat → Bool) (p : Prefs), (connectToWiFi env p []).began = false) := by
  have hct : d.drop 16 = [] :=
    List.eq_nil_of_length_eq_zero (by rw [List.length_drop, hlen])
  have hdec : decrypt_wifi_credentials junk b64 128 = some [] := by
    unfold decrypt_wifi_credentials
    rw [h]
    simp only
    rw [if_neg (by omega), if_neg (by omega)]
    simp [hct, toBlocks16, toBlocksGo, cstring, cbcDecB]
  refine ⟨hdec, ?_, ?_⟩
  · simp [handle_wifi_setup, hdec]
  · intro env p
    simp [connectToWiFi, show sscanfCreds [] = none from rfl]

theorem c5_iv_only_payload_witness :
    decrypt_wifi_credentials []
      [65, 65, 69, 67, 65, 119, 81, 70, 66, 103, 99, 73, 67, 81, 111, 76, 68, 65, 48, 79,
       68, 119, 61, 61] 128 = some [] :=
  (c5_iv_only_payload [] _ [0, 1, 2, 3, 4, 5, 6, 7, 8, 9, 10, 11, 12, 13, 14, 15]
    (by decide) (by decide)).1

/-! ## GF(2^8) multiplier lemmas -/

theorem mul3_xor (a b : Nat) : mul3 (a ^^^ b) = mul3 a ^^^ mul3 b := by
  unfold mul3
  rw [xtime_xor]
  simp [Nat.xor_assoc, Nat.xor_comm, xor_left_comm]

theorem mul9_xor (a b : Nat) : mul9 (a ^^^ b) = mul9 a ^^^ mul9 b := by
  unfold mul9
  rw [xtime_xor, xtime_xor, xtime_xor]
  simp [Nat.xor_assoc, Nat.xor_comm, xor_left_comm]

theorem mul11_xor (a b : Nat) : mul11 (a ^^^ b) = mul11 a ^^^ mul11 b := by
  unfold mul11
  rw [xtime_xor, xtime_xor, xtime_xor]
  simp [Nat.xor_assoc, Nat.xor_comm, xor_left_comm]

theorem mul13_xor (a b : Nat) : mul13 (a ^^^ b) = mul13 a ^^^ mul13 b := by
  unfold mul13
  rw [xtime_xor, xtime_xor, xtime_xor]
  simp [Nat.xor_assoc, Nat.xor_comm, xor_left_comm]

theorem mul14_xor (a b : Nat) : mul14 (a ^^^ b) = mul14 a ^^^ mul14 b := by
  unfold mul14
  rw [xtime_xor, xtime_xor, xtime_xor]
  simp [Nat.xor_assoc, Nat.xor_comm, xor_left_comm]

theorem mul3_lt {b : Nat} (h : b < 256) : mul3 b < 256 := xor_byte_lt (xtime_lt b) h

theorem mul9_lt {b : Nat} (h : b < 256) : mul9 b < 256 := xor_byte_lt (xtime_lt _) h

theorem mul11_lt {b : Nat} (h : b < 256) : mul11 b < 256 :=
  xor_byte_lt (xor_byte_lt (xtime_lt _) (xtime_lt _)) h

theorem mul13_lt {b : Nat} (h : b < 256) : mul13 b < 256 :=
  xor_byte_lt (xor_byte_lt (xtime_lt _) (xtime_lt _)) h

theorem mul14_lt (b : Nat) : mul14 b < 256 :=
  xor_byte_lt (xor_byte_lt (xtime_lt _) (xtime_lt _)) (xtime_lt _)

/-! ## Inverse-MixColumns coefficient identities (GF(2^8) matrix
product of the InvMixColumns and MixColumns circulants is the
identity), checked exhaustively over the byte range. -/

theorem coefs0 : ∀ x < 256,
    mul14 (xtime x) ^^^ mul11 x ^^^ mul13 x ^^^ mul9 (mul3 x) = x ∧
    mul14 (mul3 x) ^^^ mul11 (xtime x) ^^^ mul13 x ^^^ mul9 x = 0 ∧
    mul14 x ^^^ mul11 (mul3 x) ^^^ mul13 (xtime x) ^^^ mul9 x = 0 ∧
    mul14 x ^^^ mul11 x ^^^ mul13 (mul3 x) ^^^ mul9 (xtime x) = 0 := by decide

theorem coefs1 : ∀ x < 256,
    mul9 (xtime x) ^^^ mul14 x ^^^ mul11 x ^^^ mul13 (mul3 x) = 0 ∧
    mul9 (mul3 x) ^^^ mul14 (xtime x) ^^^ mul11 x ^^^ mul13 x = x ∧
    mul9 x ^^^ mul14 (mul3 x) ^^^ mul11 (xtime x) ^^^ mul13 x = 0 ∧
    mul9 x ^^^ mul14 x ^^^ mul11 (mul3 x) ^^^ mul13 (xtime x) = 0 := by decide

theorem coefs2 : ∀ x < 256,
    mul13 (xtime x) ^^^ mul9 x ^^^ mul14 x ^^^ mul11 (mul3 x) = 0 ∧
    mul13 (mul3 x) ^^^ mul9 (xtime x) ^^^ mul14 x ^^^ mul11 x = 0 ∧
    mul13 x ^^^ mul9 (mul3 x) ^^^ mul14 (xtime x) ^^^ mul11 x = x ∧
    mul13 x ^^^ mul9 x ^^^ mul14 (mul3 x) ^^^ mul11 (xtime x) = 0 := by decide

theorem coefs3 : ∀ x < 256,
    mul11 (xtime x) ^^^ mul13 x ^^^ mul9 x ^^^ mul14 (mul3 x) = 0 ∧
    mul11 (mul3 x) ^^^ mul13 (xtime x) ^^^ mul9 x ^^^ mul14 x = 0 ∧
    mul11 x ^^^ mul13 (mul3 x) ^^^ mul9 (xtime x) ^^^ mul14 x = 0 ∧
    mul11 x ^^^ mul13 x ^^^ mul9 (mul3 x) ^^^ mul14 (xtime x) = x := by decide

theorem mixRow0 (a b c d : Nat) (ha : a < 256) (hb : b < 256) (hc : c < 256) (hd : d < 256) :
    mul14 (xtime a ^^^ mul3 b ^^^ c ^^^ d) ^^^ mul11 (a ^^^ xtime b ^^^ mul3 c ^^^ d) ^^^
      mul13 (a ^^^ b ^^^ xtime c ^^^ mul3 d) ^^^ mul9 (mul3 a ^^^ b ^^^ c ^^^ xtime d) = a := by
  simp only [mul14_xor, mul11_xor, mul13_xor, mul9_xor]
  have h : mul14 (xtime a) ^^^ mul14 (mul3 b) ^^^ mul14 c ^^^ mul14 d ^^^
      (mul11 a ^^^ mul11 (xtime b) ^^^ mul11 (mul3 c) ^^^ mul11 d) ^^^
      (mul13 a ^^^ mul13 b ^^^ mul13 (xtime c) ^^^ mul13 (mul3 d)) ^^^
      (mul9 (mul3 a) ^^^ mul9 b ^^^ mul9 c ^^^ mul9 (xtime d)) =
      (mul14 (xtime a) ^^^ mul11 a ^^^ mul13 a ^^^ mul9 (mul3 a)) ^^^
      ((mul14 (mul3 b) ^^^ mul11 (xtime b) ^^^ mul13 b ^^^ mul9 b) ^^^
      ((mul14 c ^^^ mul11 (mul3 c) ^^^ mul13 (xtime c) ^^^ mul9 c) ^^^
      (mul14 d ^^^ mul11 d ^^^ mul13 (mul3 d) ^^^ mul9 (xtime d)))) := by
    simp [Nat.xor_assoc, Nat.xor_comm, xor_left_comm]
  rw [h, (coefs0 a ha).1, (coefs0 b hb).2.1, (coefs0 c hc).2.2.1, (coefs0 d hd).2.2.2]
  simp

theorem mixRow1 (a b c d : Nat) (ha : a < 256) (hb : b < 256) (hc : c < 256) (hd : d < 256) :
    mul9 (xtime a ^^^ mul3 b ^^^ c ^^^ d) ^^^ mul14 (a ^^^ xtime b ^^^ mul3 c ^^^ d) ^^^
      mul11 (a ^^^ b ^^^ xtime c ^^^ mul3 d) ^^^ mul13 (mul3 a ^^^ b ^^^ c ^^^ xtime d) = b := by
  simp only [mul14_xor, mul11_xor, mul13_xor, mul9_xor]
  have h : mul9 (xtime a) ^^^ mul9 (mul3 b) ^^^ mul9 c ^^^ mul9 d ^^^
      (mul14 a ^^^ mul14 (xtime b) ^^^ mul14 (mul3 c) ^^^ mul14 d) ^^^
      (mul11 a ^^^ mul11 b ^^^ mul11 (xtime c) ^^^ mul11 (mul3 d)) ^^^
      (mul13 (mul3 a) ^^^ mul13 b ^^^ mul13 c ^^^ mul13 (xtime d)) =
      (mul9 (xtime a) ^^^ mul14 a ^^^ mul11 a ^^^ mul13 (mul3 a)) ^^^
      ((mul9 (mul3 b) ^^^ mul14 (xtime b) ^^^ mul11 b ^^^ mul13 b) ^^^
      ((mul9 c ^^^ mul14 (mul3 c) ^^^ mul11 (xtime c) ^^^ mul13 c) ^^^
      (mul9 d ^^^ mul14 d ^^^ mul11 (mul3 d) ^^^ mul13 (xtime d)))) := by
    simp [Nat.xor_assoc, Nat.xor_comm, xor_left_comm]
  rw [h, (coefs1 a ha).1, (coefs1 b hb).2.1, (coefs1 c hc).2.2.1, (coefs1 d hd).2.2.2]
  simp

theorem mixRow2 (a b c d : Nat) (ha : a < 256) (hb : b < 256) (hc : c < 256) (hd : d < 256) :
    mul13 (xtime a ^^^ mul3 b ^^^ c ^^^ d) ^^^ mul9 (a ^^^ xtime b ^^^ mul3 c ^^^ d) ^^^
      mul14 (a ^^^ b ^^^ xtime c ^^^ mul3 d) ^^^ mul11 (mul3 a ^^^ b ^^^ c ^^^ xtime d) = c := by
  simp only [mul14_xor, mul11_xor, mul13_xor, mul9_xor]
  have h : mul13 (xtime a) ^^^ mul13 (mul3 b) ^^^ mul13 c ^^^ mul13 d ^^^
      (mul9 a ^^^ mul9 (xtime b) ^^^ mul9 (mul3 c) ^^^ mul9 d) ^^^
      (mul14 a ^^^ mul14 b ^^^ mul14 (xtime c) ^^^ mul14 (mul3 d)) ^^^
      (mul11 (mul3 a) ^^^ mul11 b ^^^ mul11 c ^^^ mul11 (xtime d)) =
      (mul13 (xtime a) ^^^ mul9 a ^^^ mul14 a ^^^ mul11 (mul3 a)) ^^^
      ((mul13 (mul3 b) ^^^ mul9 (xtime b) ^^^ mul14 b ^^^ mul11 b) ^^^
      ((mul13 c ^^^ mul9 (mul3 c) ^^^ mul14 (xtime c) ^^^ mul11 c) ^^^
      (mul13 d ^^^ mul9 d ^^^ mul14 (mul3 d) ^^^ mul11 (xtime d)))) := by
    simp [Nat.xor_assoc, Nat.xor_comm, xor_left_comm]
  rw [h, (coefs2 a ha).1, (coefs2 b hb).2.1, (coefs2 c hc).2.2.1, (coefs2 d hd).2.2.2]
  simp

theorem mixRow3 (a b c d : Nat) (ha : a < 256) (hb : b < 256) (hc : c < 256) (hd : d < 256) :
    mul11 (xtime a ^^^ mul3 b ^^^ c ^^^ d) ^^^ mul13 (a ^^^ xtime b ^^^ mul3 c ^^^ d) ^^^
      mul9 (a ^^^ b ^^^ xtime c ^^^ mul3 d) ^^^ mul14 (mul3 a ^^^ b ^^^ c ^^^ xtime d) = d := by
  simp only [mul14_xor, mul11_xor, mul13_xor, mul9_xor]
  have h : mul11 (xtime a) ^^^ mul11 (mul3 b) ^^^ mul11 c ^^^ mul11 d ^^^
      (mul13 a ^^^ mul13 (xtime b) ^^^ mul13 (mul3 c) ^^^ mul13 d) ^^^
      (mul9 a ^^^ mul9 b ^^^ mul9 (xtime c) ^^^ mul9 (mul3 d)) ^^^
      (mul14 (mul3 a) ^^^ mul14 b ^^^ mul14 c ^^^ mul14 (xtime d)) =
      (mul11 (xtime a) ^^^ mul13 a ^^^ mul9 a ^^^ mul14 (mul3 a)) ^^^
      ((mul11 (mul3 b) ^^^ mul13 (xtime b) ^^^ mul9 b ^^^ mul14 b) ^^^
      ((mul11 c ^^^ mul13 (mul3 c) ^^^ mul9 (xtime c) ^^^ mul14 c) ^^^
      (mul11 d ^^^ mul13 d ^^^ mul9 (mul3 d) ^^^ mul14 (xtime d)))) := by
    simp [Nat.xor_assoc, Nat.xor_comm, xor_left_comm]
  rw [h, (coefs3 a ha).1, (coefs3 b hb).2.1, (coefs3 c hc).2.2.1, (coefs3 d hd).2.2.2]
  simp

/-- Inverse MixColumns undoes MixColumns on one column of bytes. -/
theorem invMixCol4_mixCol4 (a b c d : Nat)
    (ha : a < 256) (hb : b < 256) (hc : c < 256) (hd : d < 256) :
    invMixCol4 (xtime a ^^^ mul3 b ^^^ c ^^^ d) (a ^^^ xtime b ^^^ mul3 c ^^^ d)
      (a ^^^ b ^^^ xtime c ^^^ mul3 d) (mul3 a ^^^ b ^^^ c ^^^ xtime d) = [a, b, c, d] := by
  unfold invMixCol4
  rw [mixRow0 a b c d ha hb hc hd, mixRow1 a b c d ha hb hc hd,
    mixRow2 a b c d ha hb hc hd, mixRow3 a b c d ha hb hc hd]

/-! ## State operation lemmas -/

theorem sbox_roundtrip : ∀ b < 256, invSbox (sbox b) = b ∧ sbox b < 256 ∧ invSbox b < 256 := by
  decide

theorem mixColumns_length : ∀ s : List Nat, (mixColumns s).length = s.length := by
  intro s
  induction s using mixColumns.induct with
  | case1 a b c d rest ih =>
    simp only [mixColumns, mixCol4]
    simp [ih]
  | case2 s h =>
    rw [mixColumns.eq_def]
    split
    · rename_i a b c d rest
      exact absurd rfl (h a b c d rest)
    · rfl

theorem mixColumns_mem : ∀ s : List Nat, (∀ x ∈ s, x < 256) → ∀ y ∈ mixColumns s, y < 256 := by
  intro s
  induction s using mixColumns.induct with
  | case1 a b c d rest ih =>
    intro h y hy
    have ha : a < 256 := h a (by simp)
    have hb : b < 256 := h b (by simp)
    have hc : c < 256 := h c (by simp)
    have hd : d < 256 := h d (by simp)
    simp only [mixColumns, mixCol4, List.cons_append, List.nil_append, List.mem_cons] at hy
    rcases hy with h1 | h1 | h1 | h1 | h1
    · exact h1 ▸ xor_byte_lt (xor_byte_lt (xor_byte_lt (xtime_lt a) (mul3_lt hb)) hc) hd
    · exact h1 ▸ xor_byte_lt (xor_byte_lt (xor_byte_lt ha (xtime_lt b)) (mul3_lt hc)) hd
    · exact h1 ▸ xor_byte_lt (xor_byte_lt (xor_byte_lt ha hb) (xtime_lt c)) (mul3_lt hd)
    · exact h1 ▸ xor_byte_lt (xor_byte_lt (xor_byte_lt (mul3_lt ha) hb) hc) (xtime_lt d)
    · exact ih (fun x hx => h x (by simp [hx])) y h1
  | case2 s h =>
    intro hb y hy
    have hmx : mixColumns s = s := by
      rw [mixColumns.eq_def]
      split
      · rename_i a b c d rest
        exact absurd rfl (h a b c d rest)
      · rfl
    rw [hmx] at hy
    exact hb y hy

/-- Inverse MixColumns undoes MixColumns on any in-range byte list. -/
theorem invMixColumns_mixColumns :
    ∀ s : List Nat, (∀ x ∈ s, x < 256) → invMixColumns (mixColumns s) = s := by
  intro s
  induction s using mixColumns.induct with
  | case1 a b c d rest ih =>
    intro h
    have ha : a < 256 := h a (by simp)
    have hb : b < 256 := h b (by simp)
    have hc : c < 256 := h c (by simp)
    have hd : d < 256 := h d (by simp)
    simp only [mixColumns, mixCol4, List.cons_append, List.nil_append, invMixColumns]
    rw [invMixCol4_mixCol4 a b c d ha hb hc hd]
    simp only [List.append_eq, List.nil_append]
    rw [ih (fun x hx => h x (by simp [hx]))]
    rfl
  | case2 s h =>
    intro hx
    have hmx : mixColumns s = s := by
      rw [mixColumns.eq_def]
      split
      · rename_i a b c d rest
        exact absurd rfl (h a b c d rest)
      · rfl
    rw [hmx]
    rw [invMixColumns.eq_def]
    split
    · rename_i a b c d rest
      exact absurd rfl (h a b c d rest)
    · rfl

theorem zipXor_length (a b : List Nat) : (zipXor a b).length = min a.length b.length := by
  simp [zipXor]

theorem zipXor_mem :
    ∀ (a b : List Nat), (∀ x ∈ a, x < 256) → (∀ x ∈ b, x < 256) →
      ∀ y ∈ zipXor a b, y < 256 := by
  intro a
  induction a with
  | nil => intro b _ _ y hy; simp [zipXor] at hy
  | cons x xs ih =>
    intro b ha hb y hy
    cases b with
    | nil => simp [zipXor] at hy
    | cons z zs =>
      simp only [zipXor, List.zipWith_cons_cons, List.mem_cons] at hy
      rcases hy with h1 | h1
      · exact h1 ▸ xor_byte_lt (ha x (by simp)) (hb z (by simp))
      · exact ih zs (fun u hu => ha u (by simp [hu])) (fun u hu => hb u (by simp [hu])) y h1

theorem zipXor_cancel_right :
    ∀ (x k : List Nat), x.length ≤ k.length → zipXor (zipXor x k) k = x := by
  intro x
  induction x with
  | nil => intro k _; simp [zipXor]
  | cons a xs ih =>
    intro k hk
    cases k with
    | nil => simp at hk
    | cons b ks =>
      simp only [zipXor, List.zipWith_cons_cons, List.cons.injEq]
      exact ⟨Nat.xor_cancel_right b a, ih ks (by simpa using hk)⟩

theorem zipXor_cancel_left :
    ∀ (x p : List Nat), x.length ≤ p.length → zipXor p (zipXor p x) = x := by
  intro x
  induction x with
  | nil => intro p _; simp [zipXor]
  | cons a xs ih =>
    intro p hp
    cases p with
    | nil => simp at hp
    | cons b ps =>
      simp only [zipXor, List.zipWith_cons_cons, List.cons.injEq]
      exact ⟨Nat.xor_cancel_left b a, ih ps (by simpa using hp)⟩

theorem list16_destruct (s : List Nat) (h : s.length = 16) :
    ∃ a0 a1 a2 a3 a4 a5 a6 a7 a8 a9 a10 a11 a12 a13 a14 a15,
      s = [a0, a1, a2, a3, a4, a5, a6, a7, a8, a9, a10, a11, a12, a13, a14, a15] := by
  rcases s with _ | ⟨a0, s⟩; · simp at h
  rcases s with _ | ⟨a1, s⟩; · simp at h
  rcases s with _ | ⟨a2, s⟩; · simp at h
  rcases s with _ | ⟨a3, s⟩; · simp at h
  rcases s with _ | ⟨a4, s⟩; · simp at h
  rcases s with _ | ⟨a5, s⟩; · simp at h
  rcases s with _ | ⟨a6, s⟩; · simp at h
  rcases s with _ | ⟨a7, s⟩; · simp at h
  rcases s with _ | ⟨a8, s⟩; · simp at h
  rcases s with _ | ⟨a9, s⟩; · simp at h
  rcases s with _ | ⟨a10, s⟩; · simp at h
  rcases s with _ | ⟨a11, s⟩; · simp at h
  rcases s with _ | ⟨a12, s⟩; · simp at h
  rcases s with _ | ⟨a13, s⟩; · simp at h
  rcases s with _ | ⟨a14, s⟩; · simp at h
  rcases s with _ | ⟨a15, s⟩; · simp at h
  rcases s with _ | ⟨a16, s⟩
  · exact ⟨a0, a1, a2, a3, a4, a5, a6, a7, a8, a9, a10, a11, a12, a13, a14, a15, rfl⟩
  · simp at h

theorem invShiftRows_shiftRows (s : List Nat) (h : s.length = 16) :
    invShiftRows (shiftRows s) = s := by
  obtain ⟨a0, a1, a2, a3, a4, a5, a6, a7, a8, a9, a10, a11, a12, a13, a14, a15, rfl⟩ :=
    list16_destruct s h
  rfl

theorem shiftRows_length (s : List Nat) (h : s.length = 16) : (shiftRows s).length = 16 := by
  obtain ⟨a0, a1, a2, a3, a4, a5, a6, a7, a8, a9, a10, a11, a12, a13, a14, a15, rfl⟩ :=
    list16_destruct s h
  rfl

theorem shiftRows_mem (s : List Nat) (h : s.length = 16) :
    ∀ x ∈ shiftRows s, x ∈ s := by
  obtain ⟨a0, a1, a2, a3, a4, a5, a6, a7, a8, a9, a10, a11, a12, a13, a14, a15, rfl⟩ :=
    list16_destruct s h
  intro x hx
  simp only [shiftRows, List.mem_cons, List.not_mem_nil, or_false] at hx
  simp only [List.mem_cons, List.not_mem_nil, or_false]
  tauto

theorem invSubBytes_subBytes (s : List Nat) (h : ∀ x ∈ s, x < 256) :
    invSubBytes (subBytes s) = s := by
  unfold invSubBytes subBytes
  rw [List.map_map]
  have h2 : List.map (invSbox ∘ sbox) s = List.map id s :=
    List.map_congr_left (fun a ha => (sbox_roundtrip a (h a ha)).1)
  rw [h2, List.map_id]

theorem subBytes_length (s : List Nat) : (subBytes s).length = s.length := by
  simp [subBytes]

theorem subBytes_mem (s : List Nat) (h : ∀ x ∈ s, x < 256) :
    ∀ y ∈ subBytes s, y < 256 := by
  intro y hy
  simp only [subBytes, List.mem_map] at hy
  obtain ⟨x, hx, rfl⟩ := hy
  exact (sbox_roundtrip x (h x hx)).2.1

/-! ## AES block round trip -/

theorem zipXor_block {a b : List Nat} (ha : IsBlock a) (hb : IsBlock b) :
    IsBlock (zipXor a b) := by
  refine ⟨?_, zipXor_mem a b ha.2 hb.2⟩
  rw [zipXor_length, ha.1, hb.1]
  rfl

theorem addRoundKey_block {k s : List Nat} (hk : IsBlock k) (hs : IsBlock s) :
    IsBlock (addRoundKey k s) := zipXor_block hs hk

theorem addRoundKey_cancel {k x : List Nat} (hk : k.length = 16) (hx : x.length = 16) :
    addRoundKey k (addRoundKey k x) = x := by
  unfold addRoundKey
  exact zipXor_cancel_right x k (by omega)

theorem subBytes_block {s : List Nat} (hs : IsBlock s) : IsBlock (subBytes s) :=
  ⟨by rw [subBytes_length, hs.1], subBytes_mem s hs.2⟩

theorem shiftRows_block {s : List Nat} (hs : IsBlock s) : IsBlock (shiftRows s) :=
  ⟨shiftRows_length s hs.1, fun x hx => hs.2 x (shiftRows_mem s hs.1 x hx)⟩

theorem mixColumns_block {s : List Nat} (hs : IsBlock s) : IsBlock (mixColumns s) :=
  ⟨by rw [mixColumns_length, hs.1], mixColumns_mem s hs.2⟩

theorem encMain_block :
    ∀ (rks : List (List Nat)) (s : List Nat),
      (∀ k ∈ rks, IsBlock k) → IsBlock s → IsBlock (encMain rks s) := by
  intro rks
  induction rks with
  | nil => intro s _ hs; exact hs
  | cons k rest ih =>
    intro s hk hs
    cases rest with
    | nil =>
      simp only [encMain]
      exact addRoundKey_block (hk k (by simp)) (shiftRows_block (subBytes_block hs))
    | cons k2 rest2 =>
      simp only [encMain]
      exact ih _ (fun x hx => hk x (by simp [hx]))
        (addRoundKey_block (hk k (by simp)) (mixColumns_block (shiftRows_block (subBytes_block hs))))

theorem decMain_encMain :
    ∀ (rks : List (List Nat)), (∀ k ∈ rks, IsBlock k) →
      ∀ s : List Nat, IsBlock s → decMain rks (encMain rks s) = s := by
  intro rks
  induction rks with
  | nil => intro _ s _; rfl
  | cons k rest ih =>
    intro hk s hs
    have hkk : IsBlock k := hk k (by simp)
    have hsub : IsBlock (subBytes s) := subBytes_block hs
    have hshift : IsBlock (shiftRows (subBytes s)) := shiftRows_block hsub
    cases rest with
    | nil =>
      simp only [encMain, decMain]
      rw [addRoundKey_cancel hkk.1 hshift.1]
      rw [invShiftRows_shiftRows _ hsub.1]
      rw [invSubBytes_subBytes s hs.2]
    | cons k2 rest2 =>
      have hmix : IsBlock (mixColumns (shiftRows (subBytes s))) := mixColumns_block hshift
      simp only [encMain, decMain]
      rw [ih (fun x hx => hk x (by simp [hx])) _ (addRoundKey_block hkk hmix)]
      rw [addRoundKey_cancel hkk.1 hmix.1]
      rw [invMixColumns_mixColumns _ hshift.2]
      rw [invShiftRows_shiftRows _ hsub.1]
      rw [invSubBytes_subBytes s hs.2]

theorem aesDecryptB_aesEncryptB (rks : List (List Nat)) (hk : ∀ k ∈ rks, IsBlock k)
    (s : List Nat) (hs : IsBlock s) : aesDecryptB rks (aesEncryptB rks s) = s := by
  cases rks with
  | nil => rfl
  | cons k0 rest =>
    simp only [aesEncryptB, aesDecryptB]
    rw [decMain_encMain rest (fun x hx => hk x (by simp [hx])) _
      (addRoundKey_block (hk k0 (by simp)) hs)]
    exact addRoundKey_cancel (hk k0 (by simp)).1 hs.1

theorem aesEncryptB_block (rks : List (List Nat)) (hk : ∀ k ∈ rks, IsBlock k)
    (s : List Nat) (hs : IsBlock s) : IsBlock (aesEncryptB rks s) := by
  cases rks with
  | nil => exact hs
  | cons k0 rest =>
    simp only [aesEncryptB]
    exact encMain_block rest _ (fun x hx => hk x (by simp [hx]))
      (addRoundKey_block (hk k0 (by simp)) hs)

/-- The 11 round keys expanded from the compiled-in key are
well-formed blocks. -/
theorem aesRoundKeys_blocks : ∀ k ∈ aesRoundKeys, IsBlock k := by decide

theorem aesDecBlock_aesEncBlock {s : List Nat} (hs : IsBlock s) :
    aesDecBlock (aesEncBlock s) = s :=
  aesDecryptB_aesEncryptB aesRoundKeys aesRoundKeys_blocks s hs

theorem aesEncBlock_block {s : List Nat} (hs : IsBlock s) : IsBlock (aesEncBlock s) :=
  aesEncryptB_block aesRoundKeys aesRoundKeys_blocks s hs

/-- The AES-128 model reproduces the FIPS-197 appendix C example:
key `000102...0f`, plaintext `00112233445566778899aabbccddeeff`. -/
theorem aes_fips197_example :
    aesEncryptB (keySchedule (List.range 16))
      [0x00, 0x11, 0x22, 0x33, 0x44, 0x55, 0x66, 0x77,
       0x88, 0x99, 0xaa, 0xbb, 0xcc, 0xdd, 0xee, 0xff] =
    [0x69, 0xc4, 0xe0, 0xd8, 0x6a, 0x7b, 0x04, 0x30,
     0xd8, 0xcd, 0xb7, 0x80, 0x70, 0xb4, 0xc5, 0x5a] := by decide

/-! ## CBC round trip -/

theorem cbcDecB_cbcEncB :
    ∀ (bs : List (List Nat)) (prev : List Nat), IsBlock prev → (∀ b ∈ bs, IsBlock b) →
      cbcDecB prev (cbcEncB prev bs) = bs := by
  intro bs
  induction bs with
  | nil => intro prev _ _; rfl
  | cons b rest ih =>
    intro prev hp hb
    have hbb : IsBlock b := hb b (by simp)
    have hzx : IsBlock (zipXor prev b) := zipXor_block hp hbb
    have hc : IsBlock (aesEncBlock (zipXor prev b)) := aesEncBlock_block hzx
    simp only [cbcEncB, cbcDecB]
    rw [aesDecBlock_aesEncBlock hzx]
    rw [zipXor_cancel_left b prev (by rw [hbb.1, hp.1])]
    rw [ih _ hc (fun x hx => hb x (by simp [hx]))]

theorem cbcEncB_blocks :
    ∀ (bs : List (List Nat)) (prev : List Nat), IsBlock prev → (∀ b ∈ bs, IsBlock b) →
      ∀ c ∈ cbcEncB prev bs, IsBlock c := by
  intro bs
  induction bs with
  | nil => intro prev _ _ c hc; simp [cbcEncB] at hc
  | cons b rest ih =>
    intro prev hp hb c hc
    have hbb : IsBlock b := hb b (by simp)
    have henc : IsBlock (aesEncBlock (zipXor prev b)) := aesEncBlock_block (zipXor_block hp hbb)
    simp only [cbcEncB, List.mem_cons] at hc
    rcases hc with h1 | h1
    · exact h1 ▸ henc
    · exact ih _ henc (fun x hx => hb x (by simp [hx])) c h1

theorem cbcEncB_length :
    ∀ (bs : List (List Nat)) (prev : List Nat), (cbcEncB prev bs).length = bs.length := by
  intro bs
  induction bs with
  | nil => intro prev; rfl
  | cons b rest ih =>
    intro prev
    simp only [cbcEncB, List.length_cons, ih]

theorem flatten_len16 :
    ∀ bs : List (List Nat), (∀ b ∈ bs, b.length = 16) → bs.flatten.length = 16 * bs.length := by
  intro bs
  induction bs with
  | nil => intro _; simp
  | cons b rest ih =>
    intro h
    simp only [List.flatten_cons, List.length_append, List.length_cons,
      h b (by simp), ih (fun x hx => h x (by simp [hx]))]
    ring

theorem toBlocksGo_flatten :
    ∀ (bs : List (List Nat)) (fuel : Nat), (∀ b ∈ bs, b.length = 16) → bs.length ≤ fuel →
      toBlocksGo fuel bs.flatten = bs := by
  intro bs
  induction bs with
  | nil =>
    intro fuel _ _
    rw [List.flatten_nil]
    cases fuel <;> rfl
  | cons b rest ih =>
    intro fuel h hf
    have hb : b.length = 16 := h b (by simp)
    cases fuel with
    | zero => simp at hf
    | succ f =>
      obtain ⟨b0, b', rfl⟩ : ∃ b0 b', b = b0 :: b' := by
        cases b with
        | nil => simp at hb
        | cons b0 b' => exact ⟨b0, b', rfl⟩
      rw [List.flatten_cons, List.cons_append, toBlocksGo]
      rw [← List.cons_append]
      congr 1
      · rw [← hb, List.take_left]
      · rw [← hb, List.drop_left]
        exact ih f (fun x hx => h x (by simp [hx])) (by simpa using hf)

theorem toBlocks16_flatten :
    ∀ bs : List (List Nat), (∀ b ∈ bs, b.length = 16) → toBlocks16 bs.flatten = bs := by
  intro bs h
  unfold toBlocks16
  refine toBlocksGo_flatten bs bs.flatten.length h ?_
  rw [flatten_len16 bs h]
  omega

/-! ## Claims C2 and C1 -/

/-- C2: for the plaintext `"HomeNet|Sup3rSecret"` (zero-padded to the
block size), encrypted under AES-128-CBC with the compiled-in key and
any 16-byte IV, prefixed with the IV and base64-encoded, the pipeline
decodes, decrypts and NUL-terminates back to exactly that plaintext
(acknowledged with 200), and the parse + sanitize steps recover
exactly `ssid = "HomeNet"`, `password = "Sup3rSecret"` as the
credentials handed to the connection attempt. -/
theorem c2_end_to_end (iv : List Nat) (hiv : IsBlock iv) (junk : List Nat)
    (env : Nat → Bool) (p : Prefs) :
    handle_wifi_setup junk (ReqBody.withData (c2Payload iv)) = (200, some homeNetPlain) ∧
    (connectToWiFi env p homeNetPlain).used = some (homeNetSsid, homeNetPw) := by
  have hpb : ∀ b ∈ toBlocks16 (pad0 homeNetPlain), IsBlock b := by decide
  have hcb : ∀ c ∈ cbcEncB iv (toBlocks16 (pad0 homeNetPlain)), IsBlock c :=
    cbcEncB_blocks _ iv hiv hpb
  have hctlen : (cbcEncB iv (toBlocks16 (pad0 homeNetPlain))).flatten.length = 32 := by
    rw [flatten_len16 _ (fun b hb => (hcb b hb).1), cbcEncB_length]
    decide
  have hall : ∀ x ∈ iv ++ (cbcEncB iv (toBlocks16 (pad0 homeNetPlain))).flatten, x < 256 := by
    intro x hx
    rcases List.mem_append.mp hx with h1 | h1
    · exact hiv.2 x h1
    · obtain ⟨l, hl, hxl⟩ := List.mem_flatten.mp h1
      exact (hcb l hl).2 x hxl
  have hdec : b64decode (c2Payload iv) =
      some (iv ++ (cbcEncB iv (toBlocks16 (pad0 homeNetPlain))).flatten) := by
    unfold c2Payload
    exact b64decode_b64encode _ hall
  have hlen48 : (iv ++ (cbcEncB iv (toBlocks16 (pad0 homeNetPlain))).flatten).length = 48 := by
    rw [List.length_append, hiv.1, hctlen]
  have hdrop : (iv ++ (cbcEncB iv (toBlocks16 (pad0 homeNetPlain))).flatten).drop 16 =
      (cbcEncB iv (toBlocks16 (pad0 homeNetPlain))).flatten := by
    conv_lhs => rw [← hiv.1]
    exact List.drop_left _ _
  have htake : (iv ++ (cbcEncB iv (toBlocks16 (pad0 homeNetPlain))).flatten).take 16 = iv := by
    conv_lhs => rw [← hiv.1]
    exact List.take_left _ _
  have hdecrypt : decrypt_wifi_credentials junk (c2Payload iv) 128 = some homeNetPlain := by
    simp only [decrypt_wifi_credentials, hdec]
    rw [if_neg (by rw [hlen48]; omega), if_neg (by rw [hlen48]; omega)]
    simp only [hdrop, htake, hctlen]
    rw [if_neg (by omega), if_pos trivial]
    rw [toBlocks16_flatten _ (fun b hb => (hcb b hb).1)]
    rw [cbcDecB_cbcEncB _ iv hiv hpb]
    decide
  constructor
  · simp [handle_wifi_setup, hdecrypt]
  · have hparse : sscanfCreds homeNetPlain = some (homeNetSsid, homeNetPw) := by decide
    simp only [connectToWiFi, hparse]
    decide

theorem c2_end_to_end_witness :
    IsBlock (List.range 16) ∧
    handle_wifi_setup [] (ReqBody.withData (c2Payload (List.range 16))) =
      (200, some homeNetPlain) ∧
    (connectToWiFi (fun _ => false) ⟨none, none⟩ homeNetPlain).used =
      some (homeNetSsid, homeNetPw) := by
  have h : IsBlock (List.range 16) := by decide
  have h2 := c2_end_to_end (List.range 16) h [] (fun _ => false) ⟨none, none⟩
  exact ⟨h, h2.1, h2.2⟩

/-- C1 counterexample: a well-formed encrypted payload whose plaintext
`"NoSeparatorHere"` fails only at the Credential Parser stage is
nevertheless acknowledged with 200 (not 400) and the unit of work is
dispatched with the decrypted string; the parser failure then aborts
the already-dispatched task.  So a Parser failure does not cause a
client-error response. -/
theorem c1_parser_failure_after_ack :
    handle_wifi_setup [] (ReqBody.withData noSepPayload) = (200, some noSepPlain) ∧
    sscanfCreds noSepPlain = none ∧
    (connectToWiFi (fun _ => false) ⟨none, none⟩ noSepPlain).began = false := by
  refine ⟨by decide, by decide, by decide⟩

/-- C1 (amended): a failure at the Codec or Cipher Engine stage (both
inside `decrypt_wifi_credentials`), or a malformed/field-less JSON
body, is rejected with a client-error 400 response and no unit of work
is dispatched.  The Credential Parser, however, runs inside the
already-dispatched connection task after the 200 acknowledgment: its
failure aborts that task before any connection attempt (`WiFi.begin`
is never reached) and leaves the credential store untouched, but the
request was already answered 200 and the task dispatched. -/
theorem c1_stage_failures :
    (∀ junk : List Nat,
      handle_wifi_setup junk ReqBody.badJson = (400, none) ∧
      handle_wifi_setup junk ReqBody.noData = (400, none)) ∧
    (∀ junk b64 : List Nat, decrypt_wifi_credentials junk b64 128 = none →
      handle_wifi_setup junk (ReqBody.withData b64) = (400, none)) ∧
    (∀ (env : Nat → Bool) (p : Prefs) (cs : List Nat), sscanfCreds cs = none →
      (connectToWiFi env p cs).began = false ∧ (connectToWiFi env p cs).prefs = p) := by
  refine ⟨fun junk => ⟨rfl, rfl⟩, ?_, ?_⟩
  · intro junk b64 h
    simp [handle_wifi_setup, h]
  · intro env p cs h
    simp [connectToWiFi, h]

theorem c1_stage_failures_witness :
    handle_wifi_setup [] (ReqBody.withData [33]) = (400, none) ∧
    (connectToWiFi (fun _ => false) ⟨none, none⟩ [124]).began = false :=
  ⟨c1_stage_failures.2.1 [] [33] (by decide),
   (c1_stage_failures.2.2 (fun _ => false) ⟨none, none⟩ [124] (by decide)).1⟩
